import Mathlib

/-!
Verification of the asynchronous sequential load controller
(`MB_AsyncLoadOperation` / `MB_AsyncLoadController.initLoadOperation`)
of the marble-race front end.

The embedding follows the full copy of the class in `src/unnamed/part_001`
(lines 10-86); `src/unnamed/part_000` (lines 5-83) is textually identical,
and `src/js/index.js` is a reduced near-duplicate (no percentage-sink
write, visibility via `style.display`).

A run of `initLoadOperation` is modelled as the list of observable events
it produces, in order: the synchronous phase (tip timer start, first tip
write, loading-screen show), the return to the caller (`ret` — promise
continuations are microtasks that run only after the synchronous call
stack unwinds), then the promise-chain phase (one label/bar/percentage
pre-update plus one work invocation per step) and, if the chain resolved,
the completion continuation.  A thrown exception inside a continuation
rejects the chain: the trace is truncated at the throwing event and the
completion continuation never runs (there is no `.catch` in the source).

DOM sinks are modelled by presence booleans; dereferencing an absent
(`undefined`) element, as in `this.loadingProgressBar.style.width = ...`,
throws a TypeError, modelled by the `sinkError` event.  Numeric writes
such as `"67%"` are modelled by their numeric content.

The percentage `Math.round((100 / funcList.length) * idx)` is computed
by the program in IEEE-754 binary64.  The model (`mbRound`) follows that
computation bit for bit: the correctly rounded (round-to-nearest,
ties-to-even) division `100 / n`, the correctly rounded multiplication
of that double by `i`, then ECMAScript `Math.round` — per ECMA-262 the
integer nearest the exact value of the double argument, ties toward +∞,
i.e. `⌊x + 1/2⌋` on the double's exact rational value.  Everything is
exact integer arithmetic on 53-bit scaled significands; the model is
exact for all `n` and `i` below 2^53 (JavaScript array lengths are below
2^32), a range with no overflow and no subnormals.  Binary64 rounding
differs from exact-rational rounding at reachable inputs: the first is
`n = 232`, `i = 145`, where the exact value 62.5 would round half up to
63 but the double product is 62.49999999999999289…, so the program
writes 62 (witnessed by an `example` below).
-/

set_option autoImplicit false

namespace MarbleRace

/-- Display text plus unit of work: `MB_AsyncLoadOperation` (part_001
lines 10-20).  `throws` models whether invoking `func` raises;
`retPromise` models whether `func` returns a (pending) promise — the
source discards `func()`'s return value (line 73, no `return`), so the
run semantics never reads this field. -/
structure MB_AsyncLoadOperation where
  text : String
  throws : Bool
  retPromise : Bool
deriving Repr, DecidableEq

/-- Sink configuration of an `MB_AsyncLoadController` instance
(fields set by the constructor, part_001 lines 34-41): which DOM-element
sinks are present, plus the tip list. -/
structure MB_Config where
  hasScreen : Bool
  hasLabel : Bool
  hasPct : Bool
  hasBar : Bool
  hasTipSink : Bool
  tips : List String
deriving Repr, DecidableEq

/-- The options object passed to the `MB_AsyncLoadController` constructor;
each DOM-element field may be absent (`undefined`), and `tips` may be
absent. -/
structure MB_Options where
  loadingScreen : Bool
  loadingText : Bool
  loadingPercentage : Bool
  loadingProgressBar : Bool
  loadingTips : Bool
  tips : Option (List String)
deriving Repr, DecidableEq

/-- The `MB_AsyncLoadController` constructor (part_001 lines 34-41): it
copies each option field unchecked (`this.tips = options.tips || []`).
The source constructor contains no validation and no throw statement, so
the embedding is a total function. -/
def MB_AsyncLoadController.ofOptions (o : MB_Options) : MB_Config :=
  { hasScreen := o.loadingScreen
    hasLabel := o.loadingText
    hasPct := o.loadingPercentage
    hasBar := o.loadingProgressBar
    hasTipSink := o.loadingTips
    tips := o.tips.getD [] }

/-- Observable events of one `initLoadOperation` run.  `sinkError` is a
TypeError thrown by dereferencing an absent DOM element inside a promise
continuation; `workError i` is step `i`'s work throwing; `ret` marks
`initLoadOperation` returning to its caller. -/
inductive Ev where
  | timerStart
  | timerStop
  | tipWrite (s : String)
  | tipClear
  | screenShow
  | screenHide
  | labelWrite (s : String)
  | barWrite (p : Nat)
  | pctWrite (p : Nat)
  | workRun (i : Nat)
  | workError (i : Nat)
  | sinkError
  | callbackRun
  | ret
deriving Repr, DecidableEq

/-- Floor of log₂ on positive naturals, with explicit structural fuel so
that it evaluates inside the kernel; `natLog2Go n n` halves `n` until it
drops below 2, so it takes about log₂ n steps. -/
def natLog2Go : Nat → Nat → Nat
  | 0, _ => 0
  | fuel + 1, n => if 2 ≤ n then natLog2Go fuel (n / 2) + 1 else 0

/-- Floor of log₂ (`natLog2 0 = 0`). -/
def natLog2 (n : Nat) : Nat := natLog2Go n n

/-- Rounding of the exact quotient `a / b` to the nearest integer, ties
to even: the IEEE-754 default rounding, used here for binary64 division
and multiplication results presented as scaled integers. -/
def rneDiv (a b : Nat) : Nat :=
  if 2 * (a % b) < b then a / b
  else if b < 2 * (a % b) then a / b + 1
  else if (a / b) % 2 = 0 then a / b else a / b + 1

/-- Scaling exponent for the binary64 quotient `100 / n`: the unique `s`
with `2 ^ 52 ≤ (100 / n) * 2 ^ s < 2 ^ 53` (see `mbScale_window`), so
that doubles of the quotient's magnitude are exactly the integer
multiples of `2 ^ (-s)` with 53-bit significand. -/
def mbScale (n : Nat) : Nat :=
  if 64 * n ≤ 100 * 2 ^ natLog2 n then 46 + natLog2 n else 47 + natLog2 n

/-- Significand of the binary64 quotient `100 / n`: the double computed
by `100 / funcList.length` has exact value `div100Mant n / 2 ^ mbScale n`
(correctly rounded division, round-to-nearest ties-to-even). -/
def div100Mant (n : Nat) : Nat := rneDiv (100 * 2 ^ mbScale n) n

/-- The binary64 product `(100 / n) * i`, scaled by `2 ^ mbScale n`:
`u = div100Mant n * i` is the exact product scaled; if it exceeds 53
significant bits (`natLog2 u > 52`) the low bits are rounded away
(round-to-nearest, ties-to-even) at the product's own exponent, exactly
as binary64 multiplication rounds its exact result. -/
def prodScaled (n i : Nat) : Nat :=
  let u := div100Mant n * i
  let T := natLog2 u
  if T ≤ 52 then u else rneDiv u (2 ^ (T - 52)) * 2 ^ (T - 52)

/-- The pre-step percentage `Math.round((100 / n) * i)` (part_001 lines
71-72) as the program computes it in binary64: ECMA-262 `Math.round` is
`⌊x + 1/2⌋` on the exact value `prodScaled n i / 2 ^ mbScale n` of the
double product, which over the integers is the floor division below. -/
def mbRound (n i : Nat) : Nat :=
  (2 * prodScaled n i + 2 ^ mbScale n) / 2 ^ (mbScale n + 1)

/-- The guard `this.loadingTips && this.tips.length > 0` (part_001 line
56): a tip-rotation timer is started iff this holds. -/
def tipsConfigured (cfg : MB_Config) : Bool :=
  cfg.hasTipSink && decide (0 < cfg.tips.length)

/-- Synchronous phase of `initLoadOperation` (part_001 lines 53-66): if
tips are configured, register the interval timer then write the first tip
(lines 57-61); then, if present, show the loading screen (line 66). -/
def syncEvents (cfg : MB_Config) : List Ev :=
  (if tipsConfigured cfg then [Ev.timerStart, Ev.tipWrite (cfg.tips.headD "")] else []) ++
  (if cfg.hasScreen then [Ev.screenShow] else [])

/-- Promise-chain phase (part_001 lines 67-75): for each step at index
`i` of `n`, the continuation writes the label, the progress-bar width and
the percentage (in that order, lines 70-72), then calls `func()` (line
73).  A missing element throws a TypeError at its dereference; a throwing
`func` rejects the chain.  The boolean is `true` iff the chain resolved. -/
def stepEvents (cfg : MB_Config) (n : Nat) :
    List MB_AsyncLoadOperation → Nat → List Ev × Bool
  | [], _ => ([], true)
  | op :: rest, i =>
    if cfg.hasLabel then
      if cfg.hasBar then
        if cfg.hasPct then
          if op.throws then
            ([Ev.labelWrite op.text, Ev.barWrite (mbRound n i),
              Ev.pctWrite (mbRound n i), Ev.workError i], false)
          else
            let t := stepEvents cfg n rest (i + 1)
            (Ev.labelWrite op.text :: Ev.barWrite (mbRound n i) ::
              Ev.pctWrite (mbRound n i) :: Ev.workRun i :: t.1, t.2)
        else ([Ev.labelWrite op.text, Ev.barWrite (mbRound n i), Ev.sinkError], false)
      else ([Ev.labelWrite op.text, Ev.sinkError], false)
    else ([Ev.sinkError], false)

/-- Completion continuation (part_001 lines 77-84), run only if the chain
resolved: percentage to 100, bar to 100, hide the loading screen
(unconditional dereference, line 80), clear the tip sink if present, stop
the timer if one was started, invoke the callback if supplied. -/
def finishEvents (cfg : MB_Config) (timerStarted hasCallback : Bool) : List Ev :=
  if cfg.hasPct then
    Ev.pctWrite 100 ::
      (if cfg.hasBar then
        Ev.barWrite 100 ::
          (if cfg.hasScreen then
            Ev.screenHide ::
              ((if cfg.hasTipSink then [Ev.tipClear] else []) ++
               (if timerStarted then [Ev.timerStop] else []) ++
               (if hasCallback then [Ev.callbackRun] else []))
          else [Ev.sinkError])
      else [Ev.sinkError])
  else [Ev.sinkError]

/-- Full event trace of one `initLoadOperation(funcList, callback)` call
(part_001 lines 50-85). -/
def initLoadOperation (cfg : MB_Config) (funcList : List MB_AsyncLoadOperation)
    (hasCallback : Bool) : List Ev :=
  let s := stepEvents cfg funcList.length funcList 0
  syncEvents cfg ++ [Ev.ret] ++ s.1 ++
    (if s.2 then finishEvents cfg (tipsConfigured cfg) hasCallback else [])

/-- The fixed tip-rotation period: `setInterval(..., 10000)` (part_001
line 60). -/
def tipIntervalMs : Nat := 10000

/-- Time in milliseconds after run start at which the k-th firing of the
tip-rotation interval timer occurs (`setInterval` first fires one full
period after registration). -/
def tickTime (k : Nat) : Nat := (k + 1) * tipIntervalMs

/-- Index chosen by one timer tick:
`Math.floor(Math.random() * this.tips.length)` (part_001 line 58), with
the `Math.random()` sample `r` made explicit. -/
def randomTipIndex (len : Nat) (r : ℚ) : ℤ := ⌊r * len⌋

/-- The write performed by one firing of the tip-rotation timer (part_001
lines 57-60). -/
def tipTickEvent (cfg : MB_Config) (r : ℚ) : Ev :=
  Ev.tipWrite (cfg.tips.getD (randomTipIndex cfg.tips.length r).toNat "")

/-- Percentage-sink writes of a trace, in order. -/
def pctWrites (t : List Ev) : List Nat :=
  t.filterMap fun e => match e with | Ev.pctWrite p => some p | _ => none

/-- Progress-bar-width writes of a trace, in order. -/
def barWrites (t : List Ev) : List Nat :=
  t.filterMap fun e => match e with | Ev.barWrite p => some p | _ => none

/-- Label-sink writes of a trace, in order. -/
def labelWrites (t : List Ev) : List String :=
  t.filterMap fun e => match e with | Ev.labelWrite s => some s | _ => none

/-- Subtrace of work invocations and completion-callback invocations. -/
def workEvents (t : List Ev) : List Ev :=
  t.filter fun e => match e with
    | Ev.workRun _ => true | Ev.callbackRun => true | _ => false

/-- Number of tip-rotation timers alive after the events of `t`:
timers started minus timers stopped. -/
def aliveTimers (t : List Ev) : ℤ :=
  (t.count Ev.timerStart : ℤ) - (t.count Ev.timerStop : ℤ)

/-- A step that performs work without raising. -/
def okStep (s : String) : MB_AsyncLoadOperation :=
  { text := s, throws := false, retPromise := false }

/-- A step whose work raises when invoked. -/
def throwStep (s : String) : MB_AsyncLoadOperation :=
  { text := s, throws := true, retPromise := false }

/-- A controller configuration with every sink present and no tips. -/
def fullCfg : MB_Config :=
  { hasScreen := true, hasLabel := true, hasPct := true, hasBar := true,
    hasTipSink := false, tips := [] }

/-- A controller configuration with every sink present and two tips. -/
def tipCfg : MB_Config :=
  { hasScreen := true, hasLabel := true, hasPct := true, hasBar := true,
    hasTipSink := true, tips := ["tip one", "tip two"] }

/-! ### Equation lemmas for the promise-chain phase -/

theorem stepEvents_nil (cfg : MB_Config) (n i : Nat) :
    stepEvents cfg n [] i = ([], true) := rfl

theorem stepEvents_cons_noLabel (cfg : MB_Config) (n : Nat)
    (op : MB_AsyncLoadOperation) (rest : List MB_AsyncLoadOperation) (i : Nat)
    (hL : cfg.hasLabel = false) :
    stepEvents cfg n (op :: rest) i = ([Ev.sinkError], false) := by
  simp [stepEvents, hL]

theorem stepEvents_cons_noBar (cfg : MB_Config) (n : Nat)
    (op : MB_AsyncLoadOperation) (rest : List MB_AsyncLoadOperation) (i : Nat)
    (hL : cfg.hasLabel = true) (hB : cfg.hasBar = false) :
    stepEvents cfg n (op :: rest) i =
      ([Ev.labelWrite op.text, Ev.sinkError], false) := by
  simp [stepEvents, hL, hB]

theorem stepEvents_cons_noPct (cfg : MB_Config) (n : Nat)
    (op : MB_AsyncLoadOperation) (rest : List MB_AsyncLoadOperation) (i : Nat)
    (hL : cfg.hasLabel = true) (hB : cfg.hasBar = true) (hP : cfg.hasPct = false) :
    stepEvents cfg n (op :: rest) i =
      ([Ev.labelWrite op.text, Ev.barWrite (mbRound n i), Ev.sinkError], false) := by
  simp [stepEvents, hL, hB, hP]

theorem stepEvents_cons_throw (cfg : MB_Config) (n : Nat)
    (op : MB_AsyncLoadOperation) (rest : List MB_AsyncLoadOperation) (i : Nat)
    (hL : cfg.hasLabel = true) (hB : cfg.hasBar = true) (hP : cfg.hasPct = true)
    (hT : op.throws = true) :
    stepEvents cfg n (op :: rest) i =
      ([Ev.labelWrite op.text, Ev.barWrite (mbRound n i), Ev.pctWrite (mbRound n i),
        Ev.workError i], false) := by
  simp [stepEvents, hL, hB, hP, hT]

theorem stepEvents_cons_ok (cfg : MB_Config) (n : Nat)
    (op : MB_AsyncLoadOperation) (rest : List MB_AsyncLoadOperation) (i : Nat)
    (hL : cfg.hasLabel = true) (hB : cfg.hasBar = true) (hP : cfg.hasPct = true)
    (hT : op.throws = false) :
    stepEvents cfg n (op :: rest) i =
      (Ev.labelWrite op.text :: Ev.barWrite (mbRound n i) :: Ev.pctWrite (mbRound n i) ::
        Ev.workRun i :: (stepEvents cfg n rest (i + 1)).1,
       (stepEvents cfg n rest (i + 1)).2) := by
  simp [stepEvents, hL, hB, hP, hT]

/-- Expected trace of the promise-chain phase when every sink needed by
the per-step continuation is present and no step throws. -/
def okStepTrace (n : Nat) : List MB_AsyncLoadOperation → Nat → List Ev
  | [], _ => []
  | op :: rest, i =>
    Ev.labelWrite op.text :: Ev.barWrite (mbRound n i) :: Ev.pctWrite (mbRound n i) ::
      Ev.workRun i :: okStepTrace n rest (i + 1)

theorem stepEvents_ok (cfg : MB_Config) (n : Nat)
    (hL : cfg.hasLabel = true) (hB : cfg.hasBar = true) (hP : cfg.hasPct = true) :
    ∀ (l : List MB_AsyncLoadOperation) (i : Nat), (∀ op ∈ l, op.throws = false) →
      stepEvents cfg n l i = (okStepTrace n l i, true) := by
  intro l
  induction l with
  | nil => intro i _; rfl
  | cons op rest ih =>
    intro i hok
    have hT : op.throws = false := hok op (List.mem_cons_self op rest)
    rw [stepEvents_cons_ok cfg n op rest i hL hB hP hT,
        ih (i + 1) (fun x hx => hok x (List.mem_cons_of_mem op hx))]
    rfl

theorem stepEvents_throw (cfg : MB_Config) (n : Nat)
    (hL : cfg.hasLabel = true) (hB : cfg.hasBar = true) (hP : cfg.hasPct = true) :
    ∀ (good : List MB_AsyncLoadOperation) (i : Nat) (bad : MB_AsyncLoadOperation)
      (rest : List MB_AsyncLoadOperation),
      (∀ op ∈ good, op.throws = false) → bad.throws = true →
      stepEvents cfg n (good ++ bad :: rest) i =
        (okStepTrace n good i ++
          [Ev.labelWrite bad.text, Ev.barWrite (mbRound n (i + good.length)),
           Ev.pctWrite (mbRound n (i + good.length)), Ev.workError (i + good.length)],
         false) := by
  intro good
  induction good with
  | nil =>
    intro i bad rest _ hbad
    simpa [okStepTrace] using stepEvents_cons_throw cfg n bad rest i hL hB hP hbad
  | cons op gtail ih =>
    intro i bad rest hok hbad
    have hT : op.throws = false := hok op (List.mem_cons_self op gtail)
    rw [List.cons_append,
        stepEvents_cons_ok cfg n op (gtail ++ bad :: rest) i hL hB hP hT,
        ih (i + 1) bad rest (fun x hx => hok x (List.mem_cons_of_mem op hx)) hbad]
    simp [okStepTrace, Nat.add_comm, Nat.add_assoc, Nat.add_left_comm]

/-! ### Extraction lemmas -/

theorem pctWrites_append (a b : List Ev) :
    pctWrites (a ++ b) = pctWrites a ++ pctWrites b := List.filterMap_append ..

theorem barWrites_append (a b : List Ev) :
    barWrites (a ++ b) = barWrites a ++ barWrites b := List.filterMap_append ..

theorem labelWrites_append (a b : List Ev) :
    labelWrites (a ++ b) = labelWrites a ++ labelWrites b := List.filterMap_append ..

theorem workEvents_append (a b : List Ev) :
    workEvents (a ++ b) = workEvents a ++ workEvents b := List.filter_append ..

theorem pctWrites_okStepTrace (n : Nat) :
    ∀ (l : List MB_AsyncLoadOperation) (i : Nat),
      pctWrites (okStepTrace n l i) = (List.range' i l.length).map (mbRound n) := by
  intro l
  induction l with
  | nil => intro i; rfl
  | cons op rest ih =>
    intro i
    simp [okStepTrace, pctWrites, List.filterMap_cons, List.range'_succ,
      ← ih (i + 1), pctWrites]

theorem barWrites_okStepTrace (n : Nat) :
    ∀ (l : List MB_AsyncLoadOperation) (i : Nat),
      barWrites (okStepTrace n l i) = (List.range' i l.length).map (mbRound n) := by
  intro l
  induction l with
  | nil => intro i; rfl
  | cons op rest ih =>
    intro i
    simp [okStepTrace, barWrites, List.filterMap_cons, List.range'_succ,
      ← ih (i + 1), barWrites]

theorem labelWrites_okStepTrace (n : Nat) :
    ∀ (l : List MB_AsyncLoadOperation) (i : Nat),
      labelWrites (okStepTrace n l i) = l.map MB_AsyncLoadOperation.text := by
  intro l
  induction l with
  | nil => intro i; rfl
  | cons op rest ih =>
    intro i
    simp [okStepTrace, labelWrites, List.filterMap_cons, ← ih (i + 1), labelWrites]

theorem workEvents_okStepTrace (n : Nat) :
    ∀ (l : List MB_AsyncLoadOperation) (i : Nat),
      workEvents (okStepTrace n l i) = (List.range' i l.length).map Ev.workRun := by
  intro l
  induction l with
  | nil => intro i; rfl
  | cons op rest ih =>
    intro i
    simp [okStepTrace, workEvents, List.filter_cons, List.range'_succ,
      ← ih (i + 1), workEvents]

/-! ### Shape of the synchronous and completion phases -/

theorem mem_syncEvents_shape (cfg : MB_Config) (e : Ev) (h : e ∈ syncEvents cfg) :
    e = Ev.timerStart ∨ (∃ s, e = Ev.tipWrite s) ∨ e = Ev.screenShow := by
  cases h1 : tipsConfigured cfg with
  | false =>
    cases h2 : cfg.hasScreen with
    | false => simp [syncEvents, h1, h2] at h
    | true =>
      simp [syncEvents, h1, h2] at h
      subst h; simp
  | true =>
    cases h2 : cfg.hasScreen with
    | false =>
      simp [syncEvents, h1, h2] at h
      rcases h with rfl | rfl <;> simp
    | true =>
      simp [syncEvents, h1, h2] at h
      rcases h with rfl | rfl | rfl <;> simp

theorem mem_stepEvents_shape (cfg : MB_Config) (n : Nat) :
    ∀ (l : List MB_AsyncLoadOperation) (i : Nat) (e : Ev),
      e ∈ (stepEvents cfg n l i).1 →
      (∃ s, e = Ev.labelWrite s) ∨ (∃ p, e = Ev.barWrite p) ∨ (∃ p, e = Ev.pctWrite p) ∨
      (∃ j, e = Ev.workRun j) ∨ (∃ j, e = Ev.workError j) ∨ e = Ev.sinkError := by
  intro l
  induction l with
  | nil => intro i e h; simp [stepEvents_nil] at h
  | cons op rest ih =>
    intro i e h
    cases hL : cfg.hasLabel with
    | false =>
      rw [stepEvents_cons_noLabel cfg n op rest i hL] at h
      simp at h; subst h; simp
    | true =>
      cases hB : cfg.hasBar with
      | false =>
        rw [stepEvents_cons_noBar cfg n op rest i hL hB] at h
        simp at h; rcases h with rfl | rfl <;> simp
      | true =>
        cases hP : cfg.hasPct with
        | false =>
          rw [stepEvents_cons_noPct cfg n op rest i hL hB hP] at h
          simp at h; rcases h with rfl | rfl | rfl <;> simp
        | true =>
          cases hT : op.throws with
          | true =>
            rw [stepEvents_cons_throw cfg n op rest i hL hB hP hT] at h
            simp at h; rcases h with rfl | rfl | rfl | rfl <;> simp
          | false =>
            rw [stepEvents_cons_ok cfg n op rest i hL hB hP hT] at h
            simp at h
            rcases h with rfl | rfl | rfl | rfl | h
            · simp
            · simp
            · simp
            · simp
            · exact ih (i + 1) e h

theorem timerStart_not_mem_stepEvents (cfg : MB_Config) (n : Nat)
    (l : List MB_AsyncLoadOperation) (i : Nat) :
    Ev.timerStart ∉ (stepEvents cfg n l i).1 := by
  intro h
  rcases mem_stepEvents_shape cfg n l i _ h with
    ⟨s, h'⟩ | ⟨p, h'⟩ | ⟨p, h'⟩ | ⟨j, h'⟩ | ⟨j, h'⟩ | h' <;> cases h'

theorem timerStop_not_mem_stepEvents (cfg : MB_Config) (n : Nat)
    (l : List MB_AsyncLoadOperation) (i : Nat) :
    Ev.timerStop ∉ (stepEvents cfg n l i).1 := by
  intro h
  rcases mem_stepEvents_shape cfg n l i _ h with
    ⟨s, h'⟩ | ⟨p, h'⟩ | ⟨p, h'⟩ | ⟨j, h'⟩ | ⟨j, h'⟩ | h' <;> cases h'

theorem callbackRun_not_mem_stepEvents (cfg : MB_Config) (n : Nat)
    (l : List MB_AsyncLoadOperation) (i : Nat) :
    Ev.callbackRun ∉ (stepEvents cfg n l i).1 := by
  intro h
  rcases mem_stepEvents_shape cfg n l i _ h with
    ⟨s, h'⟩ | ⟨p, h'⟩ | ⟨p, h'⟩ | ⟨j, h'⟩ | ⟨j, h'⟩ | h' <;> cases h'

theorem timerStart_not_mem_finishEvents (cfg : MB_Config) (ts cb : Bool) :
    Ev.timerStart ∉ finishEvents cfg ts cb := by
  cases hP : cfg.hasPct <;> cases hB : cfg.hasBar <;> cases hS : cfg.hasScreen <;>
    cases hT : cfg.hasTipSink <;> cases ts <;> cases cb <;>
    simp [finishEvents, hP, hB, hS, hT]

theorem count_timerStart_syncEvents (cfg : MB_Config) :
    (syncEvents cfg).count Ev.timerStart = (if tipsConfigured cfg then 1 else 0) := by
  cases h1 : tipsConfigured cfg <;> cases h2 : cfg.hasScreen <;>
    simp [syncEvents, h1, h2, List.count_cons, List.count_append]

theorem count_timerStop_syncEvents (cfg : MB_Config) :
    (syncEvents cfg).count Ev.timerStop = 0 := by
  cases h1 : tipsConfigured cfg <;> cases h2 : cfg.hasScreen <;>
    simp [syncEvents, h1, h2, List.count_cons, List.count_append]

theorem count_timerStop_finishEvents (cfg : MB_Config) (ts cb : Bool)
    (hP : cfg.hasPct = true) (hB : cfg.hasBar = true) (hS : cfg.hasScreen = true) :
    (finishEvents cfg ts cb).count Ev.timerStop = (if ts then 1 else 0) := by
  cases hT : cfg.hasTipSink <;> cases ts <;> cases cb <;>
    simp [finishEvents, hP, hB, hS, hT, List.count_cons, List.count_append]

/-! ### Assembled traces -/

theorem initLoad_ok (cfg : MB_Config) (l : List MB_AsyncLoadOperation) (cb : Bool)
    (hL : cfg.hasLabel = true) (hB : cfg.hasBar = true) (hP : cfg.hasPct = true)
    (hok : ∀ op ∈ l, op.throws = false) :
    initLoadOperation cfg l cb =
      syncEvents cfg ++ [Ev.ret] ++ okStepTrace l.length l 0 ++
        finishEvents cfg (tipsConfigured cfg) cb := by
  unfold initLoadOperation
  rw [stepEvents_ok cfg l.length hL hB hP l 0 hok]
  rfl

theorem initLoad_throw (cfg : MB_Config) (good : List MB_AsyncLoadOperation)
    (bad : MB_AsyncLoadOperation) (rest : List MB_AsyncLoadOperation) (cb : Bool)
    (hL : cfg.hasLabel = true) (hB : cfg.hasBar = true) (hP : cfg.hasPct = true)
    (hok : ∀ op ∈ good, op.throws = false) (hbad : bad.throws = true) :
    initLoadOperation cfg (good ++ bad :: rest) cb =
      syncEvents cfg ++ [Ev.ret] ++
        (okStepTrace (good ++ bad :: rest).length good 0 ++
          [Ev.labelWrite bad.text,
           Ev.barWrite (mbRound (good ++ bad :: rest).length good.length),
           Ev.pctWrite (mbRound (good ++ bad :: rest).length good.length),
           Ev.workError good.length]) := by
  unfold initLoadOperation
  rw [stepEvents_throw cfg (good ++ bad :: rest).length hL hB hP good 0 bad rest hok hbad]
  simp

/-! ### The rounding model -/

theorem natLog2Go_spec :
    ∀ (fuel n : Nat), 1 ≤ n → n ≤ fuel →
      2 ^ natLog2Go fuel n ≤ n ∧ n < 2 ^ (natLog2Go fuel n + 1) := by
  intro fuel
  induction fuel with
  | zero => intro n h1 h2; exact absurd h1 (by omega)
  | succ fuel ih =>
    intro n h1 h2
    by_cases h : 2 ≤ n
    · have hrec := ih (n / 2) (by omega) (by omega)
      simp only [natLog2Go, if_pos h]
      constructor
      · calc 2 ^ (natLog2Go fuel (n / 2) + 1)
            = 2 * 2 ^ natLog2Go fuel (n / 2) := by ring
          _ ≤ n := by omega
      · calc n < 2 * 2 ^ (natLog2Go fuel (n / 2) + 1) := by omega
          _ = 2 ^ (natLog2Go fuel (n / 2) + 1 + 1) := by ring
    · simp only [natLog2Go, if_neg h]
      omega

theorem natLog2_spec (n : Nat) (hn : 1 ≤ n) :
    2 ^ natLog2 n ≤ n ∧ n < 2 ^ (natLog2 n + 1) :=
  natLog2Go_spec n n hn (Nat.le_refl n)

/-- `rneDiv a b` is within half of the exact quotient: the two stated
inequalities say `a/b - 1/2 ≤ rneDiv a b ≤ a/b + 1/2`, cleared of
denominators. -/
theorem rneDiv_spec (a b : Nat) (hb : 0 < b) :
    2 * a ≤ 2 * rneDiv a b * b + b ∧ 2 * rneDiv a b * b ≤ 2 * a + b := by
  obtain ⟨q, r, hqd, hrm, hr, ha⟩ : ∃ q r, a / b = q ∧ a % b = r ∧ r < b ∧ a = b * q + r :=
    ⟨a / b, a % b, rfl, rfl, Nat.mod_lt a hb, (Nat.div_add_mod a b).symm⟩
  unfold rneDiv
  rw [hqd, hrm]
  subst ha
  split
  · constructor <;> nlinarith
  · split
    · constructor <;> nlinarith
    · split <;> constructor <;> nlinarith

/-- At an exact tie (`2 * (a % b) = b`) the rounding picks the even
integer — ties to even, the IEEE-754 default. -/
theorem rneDiv_tie_even (a b : Nat) (htie : 2 * (a % b) = b) :
    rneDiv a b % 2 = 0 := by
  unfold rneDiv
  split
  · omega
  · split
    · omega
    · split
      · assumption
      · omega

/-- The scaled dividend `100 * 2 ^ mbScale n` sits in the binary64
significand window `[2 ^ 52 * n, 2 ^ 53 * n)`: the quotient
`100 / n` scaled by `2 ^ mbScale n` lies in `[2 ^ 52, 2 ^ 53)`, so
`div100Mant n` is a genuine 53-bit significand and the rounding grid is
exactly the binary64 grid at the quotient's exponent. -/
theorem mbScale_window (n : Nat) (hn : 0 < n) :
    2 ^ 52 * n ≤ 100 * 2 ^ mbScale n ∧ 100 * 2 ^ mbScale n < 2 ^ 53 * n := by
  obtain ⟨h1, h2⟩ := natLog2_spec n hn
  unfold mbScale
  split
  · rename_i hc
    constructor
    · calc 2 ^ 52 * n = 2 ^ 46 * (64 * n) := by ring
        _ ≤ 2 ^ 46 * (100 * 2 ^ natLog2 n) := Nat.mul_le_mul_left _ hc
        _ = 100 * 2 ^ (46 + natLog2 n) := by rw [pow_add]; ring
    · calc 100 * 2 ^ (46 + natLog2 n) = 2 ^ 46 * (100 * 2 ^ natLog2 n) := by
            rw [pow_add]; ring
        _ ≤ 2 ^ 46 * (100 * n) := Nat.mul_le_mul_left _ (Nat.mul_le_mul_left _ h1)
        _ < 2 ^ 53 * n := by nlinarith [hn]
  · rename_i hc
    have hlt : 100 * 2 ^ natLog2 n < 64 * n := Nat.lt_of_not_le hc
    constructor
    · have ha : 32 * n < 100 * 2 ^ natLog2 n := by
        calc 32 * n < 32 * 2 ^ (natLog2 n + 1) := by
              exact mul_lt_mul_of_pos_left h2 (by norm_num)
          _ = 64 * 2 ^ natLog2 n := by rw [pow_succ]; ring
          _ ≤ 100 * 2 ^ natLog2 n := Nat.mul_le_mul_right _ (by omega)
      calc 2 ^ 52 * n = 2 ^ 47 * (32 * n) := by ring
        _ ≤ 2 ^ 47 * (100 * 2 ^ natLog2 n) := Nat.mul_le_mul_left _ (Nat.le_of_lt ha)
        _ = 100 * 2 ^ (47 + natLog2 n) := by rw [pow_add]; ring
    · calc 100 * 2 ^ (47 + natLog2 n) = 2 ^ 47 * (100 * 2 ^ natLog2 n) := by
            rw [pow_add]; ring
        _ < 2 ^ 47 * (64 * n) := by
            exact mul_lt_mul_of_pos_left hlt (by positivity)
        _ = 2 ^ 53 * n := by ring

example : mbRound 3 0 = 0 ∧ mbRound 3 1 = 33 ∧ mbRound 3 2 = 67 := by decide

example : mbRound 232 145 = 62 := by decide

example : (200 * 145 + 232) / (2 * 232) = 63 := by decide

/-! ### Extraction over the synchronous and completion phases -/

theorem pctWrites_syncEvents (cfg : MB_Config) : pctWrites (syncEvents cfg) = [] := by
  cases h1 : tipsConfigured cfg <;> cases h2 : cfg.hasScreen <;>
    simp [syncEvents, h1, h2, pctWrites]

theorem barWrites_syncEvents (cfg : MB_Config) : barWrites (syncEvents cfg) = [] := by
  cases h1 : tipsConfigured cfg <;> cases h2 : cfg.hasScreen <;>
    simp [syncEvents, h1, h2, barWrites]

theorem labelWrites_syncEvents (cfg : MB_Config) : labelWrites (syncEvents cfg) = [] := by
  cases h1 : tipsConfigured cfg <;> cases h2 : cfg.hasScreen <;>
    simp [syncEvents, h1, h2, labelWrites]

theorem workEvents_syncEvents (cfg : MB_Config) : workEvents (syncEvents cfg) = [] := by
  cases h1 : tipsConfigured cfg <;> cases h2 : cfg.hasScreen <;>
    simp [syncEvents, h1, h2, workEvents]

theorem pctWrites_finishEvents_full (cfg : MB_Config) (ts cb : Bool)
    (hP : cfg.hasPct = true) (hB : cfg.hasBar = true) (hS : cfg.hasScreen = true) :
    pctWrites (finishEvents cfg ts cb) = [100] := by
  cases hT : cfg.hasTipSink <;> cases ts <;> cases cb <;>
    simp [finishEvents, hP, hB, hS, hT, pctWrites]

theorem barWrites_finishEvents_full (cfg : MB_Config) (ts cb : Bool)
    (hP : cfg.hasPct = true) (hB : cfg.hasBar = true) (hS : cfg.hasScreen = true) :
    barWrites (finishEvents cfg ts cb) = [100] := by
  cases hT : cfg.hasTipSink <;> cases ts <;> cases cb <;>
    simp [finishEvents, hP, hB, hS, hT, barWrites]

theorem labelWrites_finishEvents_full (cfg : MB_Config) (ts cb : Bool)
    (hP : cfg.hasPct = true) (hB : cfg.hasBar = true) (hS : cfg.hasScreen = true) :
    labelWrites (finishEvents cfg ts cb) = [] := by
  cases hT : cfg.hasTipSink <;> cases ts <;> cases cb <;>
    simp [finishEvents, hP, hB, hS, hT, labelWrites]

theorem workEvents_finishEvents_full (cfg : MB_Config) (ts cb : Bool)
    (hP : cfg.hasPct = true) (hB : cfg.hasBar = true) (hS : cfg.hasScreen = true) :
    workEvents (finishEvents cfg ts cb) = (if cb then [Ev.callbackRun] else []) := by
  cases hT : cfg.hasTipSink <;> cases ts <;> cases cb <;>
    simp [finishEvents, hP, hB, hS, hT, workEvents]

theorem finishEvents_success (cfg : MB_Config) (cb : Bool)
    (hP : cfg.hasPct = true) (hB : cfg.hasBar = true) (hS : cfg.hasScreen = true)
    (hT : cfg.hasTipSink = true) :
    finishEvents cfg true cb =
      [Ev.pctWrite 100, Ev.barWrite 100, Ev.screenHide, Ev.tipClear, Ev.timerStop] ++
        (if cb then [Ev.callbackRun] else []) := by
  simp [finishEvents, hP, hB, hS, hT]

/-! ### Membership facts -/

theorem timerStart_mem_syncEvents (cfg : MB_Config) (h : tipsConfigured cfg = true) :
    Ev.timerStart ∈ syncEvents cfg := by
  cases h2 : cfg.hasScreen <;> simp [syncEvents, h, h2]

theorem timerStop_not_mem_syncEvents (cfg : MB_Config) :
    Ev.timerStop ∉ syncEvents cfg := by
  intro h
  rcases mem_syncEvents_shape cfg _ h with h' | ⟨s, h'⟩ | h' <;> cases h'

theorem ret_not_mem_syncEvents (cfg : MB_Config) : Ev.ret ∉ syncEvents cfg := by
  intro h
  rcases mem_syncEvents_shape cfg _ h with h' | ⟨s, h'⟩ | h' <;> cases h'

theorem workRun_not_mem_syncEvents (cfg : MB_Config) (i : Nat) :
    Ev.workRun i ∉ syncEvents cfg := by
  intro h
  rcases mem_syncEvents_shape cfg _ h with h' | ⟨s, h'⟩ | h' <;> cases h'

theorem callbackRun_not_mem_syncEvents (cfg : MB_Config) :
    Ev.callbackRun ∉ syncEvents cfg := by
  intro h
  rcases mem_syncEvents_shape cfg _ h with h' | ⟨s, h'⟩ | h' <;> cases h'

theorem tipWrite_not_mem_stepEvents (cfg : MB_Config) (n : Nat)
    (l : List MB_AsyncLoadOperation) (i : Nat) (s : String) :
    Ev.tipWrite s ∉ (stepEvents cfg n l i).1 := by
  intro h
  rcases mem_stepEvents_shape cfg n l i _ h with
    ⟨u, h'⟩ | ⟨p, h'⟩ | ⟨p, h'⟩ | ⟨j, h'⟩ | ⟨j, h'⟩ | h' <;> cases h'

theorem tipWrite_not_mem_finishEvents (cfg : MB_Config) (ts cb : Bool) (s : String) :
    Ev.tipWrite s ∉ finishEvents cfg ts cb := by
  cases hP : cfg.hasPct <;> cases hB : cfg.hasBar <;> cases hS : cfg.hasScreen <;>
    cases hT : cfg.hasTipSink <;> cases ts <;> cases cb <;>
    simp [finishEvents, hP, hB, hS, hT]

theorem tipWrite_not_mem_syncEvents_of_not_configured (cfg : MB_Config)
    (h : tipsConfigured cfg = false) (s : String) :
    Ev.tipWrite s ∉ syncEvents cfg := by
  cases h2 : cfg.hasScreen <;> simp [syncEvents, h, h2]

theorem timerStart_not_mem_syncEvents_of_not_configured (cfg : MB_Config)
    (h : tipsConfigured cfg = false) :
    Ev.timerStart ∉ syncEvents cfg := by
  cases h2 : cfg.hasScreen <;> simp [syncEvents, h, h2]

/-- In a list of events that all differ from `ret`, followed by `ret`,
`takeWhile` keeps exactly the leading block. -/
theorem takeWhile_until_ret (l r : List Ev) (hl : Ev.ret ∉ l) :
    (l ++ Ev.ret :: r).takeWhile (fun e => e != Ev.ret) = l := by
  induction l with
  | nil => simp [List.takeWhile_cons]
  | cons a t ih =>
    have ha : (a != Ev.ret) = true := by
      simp only [bne_iff_ne, ne_eq]
      intro h'; exact hl (h' ▸ List.mem_cons_self a t)
    simp only [List.cons_append, List.takeWhile_cons, ha, if_true]
    rw [ih (fun h' => hl (List.mem_cons_of_mem a h'))]

theorem mem_okStepTrace_shape (n : Nat) :
    ∀ (l : List MB_AsyncLoadOperation) (i : Nat) (e : Ev), e ∈ okStepTrace n l i →
      (∃ s, e = Ev.labelWrite s) ∨ (∃ p, e = Ev.barWrite p) ∨ (∃ p, e = Ev.pctWrite p) ∨
      (∃ j, e = Ev.workRun j) := by
  intro l
  induction l with
  | nil => intro i e h; simp [okStepTrace] at h
  | cons op rest ih =>
    intro i e h
    simp only [okStepTrace, List.mem_cons] at h
    rcases h with rfl | rfl | rfl | rfl | h
    · simp
    · simp
    · simp
    · simp
    · exact ih (i + 1) e h

theorem timerStart_not_mem_okStepTrace (n : Nat) (l : List MB_AsyncLoadOperation) (i : Nat) :
    Ev.timerStart ∉ okStepTrace n l i := by
  intro h
  rcases mem_okStepTrace_shape n l i _ h with ⟨s, h'⟩ | ⟨p, h'⟩ | ⟨p, h'⟩ | ⟨j, h'⟩ <;> cases h'

theorem timerStop_not_mem_okStepTrace (n : Nat) (l : List MB_AsyncLoadOperation) (i : Nat) :
    Ev.timerStop ∉ okStepTrace n l i := by
  intro h
  rcases mem_okStepTrace_shape n l i _ h with ⟨s, h'⟩ | ⟨p, h'⟩ | ⟨p, h'⟩ | ⟨j, h'⟩ <;> cases h'

theorem callbackRun_not_mem_okStepTrace (n : Nat) (l : List MB_AsyncLoadOperation) (i : Nat) :
    Ev.callbackRun ∉ okStepTrace n l i := by
  intro h
  rcases mem_okStepTrace_shape n l i _ h with ⟨s, h'⟩ | ⟨p, h'⟩ | ⟨p, h'⟩ | ⟨j, h'⟩ <;> cases h'

theorem tipWrite_not_mem_okStepTrace (n : Nat) (l : List MB_AsyncLoadOperation) (i : Nat)
    (s : String) : Ev.tipWrite s ∉ okStepTrace n l i := by
  intro h
  rcases mem_okStepTrace_shape n l i _ h with ⟨u, h'⟩ | ⟨p, h'⟩ | ⟨p, h'⟩ | ⟨j, h'⟩ <;> cases h'

theorem pctWrites_ret : pctWrites [Ev.ret] = [] := rfl

theorem barWrites_ret : barWrites [Ev.ret] = [] := rfl

theorem labelWrites_ret : labelWrites [Ev.ret] = [] := rfl

theorem workEvents_ret : workEvents [Ev.ret] = [] := rfl

example :
    initLoadOperation fullCfg [okStep "A", okStep "B", okStep "C"] true =
      [Ev.screenShow, Ev.ret,
       Ev.labelWrite "A", Ev.barWrite 0, Ev.pctWrite 0, Ev.workRun 0,
       Ev.labelWrite "B", Ev.barWrite 33, Ev.pctWrite 33, Ev.workRun 1,
       Ev.labelWrite "C", Ev.barWrite 67, Ev.pctWrite 67, Ev.workRun 2,
       Ev.pctWrite 100, Ev.barWrite 100, Ev.screenHide, Ev.callbackRun] := rfl

example :
    initLoadOperation tipCfg [throwStep "A"] true =
      [Ev.timerStart, Ev.tipWrite "tip one", Ev.screenShow, Ev.ret,
       Ev.labelWrite "A", Ev.barWrite 0, Ev.pctWrite 0, Ev.workError 0] := rfl

/-! ### Claim C1 -/

/-- Claim C1 is false as stated: the percentage (and bar width) written
before step `i` of `n` is `Math.round((100 / n) * i)` computed in
binary64, not `floor(100 * i / n)`.  On the claim's own example `n = 3`
the pre-step values are 0, 33, 67: before step 2 the code writes 67
while `floor(100 * 2 / 3) = 66`. -/
theorem C1_counterexample :
    pctWrites (initLoadOperation fullCfg [okStep "A", okStep "B", okStep "C"] true) =
      [0, 33, 67, 100] ∧
    barWrites (initLoadOperation fullCfg [okStep "A", okStep "B", okStep "C"] true) =
      [0, 33, 67, 100] ∧
    100 * 2 / 3 = 66 ∧ (67 : Nat) ≠ 66 :=
  ⟨rfl, rfl, rfl, by decide⟩

/-- Claim C1 amended: for every run of `n > 0` steps with all sinks
present and no step throwing, the percentage-sink and progress-bar
writes are exactly `Math.round((100 / n) * i)` evaluated in IEEE-754
binary64 (`mbRound`: correctly rounded division, correctly rounded
multiplication, then `⌊· + 1/2⌋` on the double product's exact value)
for `i = 0, …, n-1`, followed by the forced final 100; for `n = 3` the
pre-step values are 0, 33, 67.  The last three conjuncts pin the model:
`mbRound` is `Math.round` of the scaled double product, and the scaling
puts the quotient's significand exactly in the binary64 window
`[2 ^ 52, 2 ^ 53)`. -/
theorem C1_amended (cfg : MB_Config) (l : List MB_AsyncLoadOperation) (cb : Bool)
    (hS : cfg.hasScreen = true) (hL : cfg.hasLabel = true) (hP : cfg.hasPct = true)
    (hB : cfg.hasBar = true) (hok : ∀ op ∈ l, op.throws = false) (hn : 0 < l.length) :
    pctWrites (initLoadOperation cfg l cb) =
      (List.range l.length).map (mbRound l.length) ++ [100] ∧
    barWrites (initLoadOperation cfg l cb) =
      (List.range l.length).map (mbRound l.length) ++ [100] ∧
    (∀ i : Nat, mbRound l.length i =
      (2 * prodScaled l.length i + 2 ^ mbScale l.length) / 2 ^ (mbScale l.length + 1)) ∧
    2 ^ 52 * l.length ≤ 100 * 2 ^ mbScale l.length ∧
    100 * 2 ^ mbScale l.length < 2 ^ 53 * l.length := by
  rw [initLoad_ok cfg l cb hL hB hP hok]
  refine ⟨?_, ?_, fun i => rfl, (mbScale_window l.length hn).1, (mbScale_window l.length hn).2⟩
  · rw [pctWrites_append, pctWrites_append, pctWrites_append, pctWrites_syncEvents,
      pctWrites_ret, pctWrites_okStepTrace,
      pctWrites_finishEvents_full cfg (tipsConfigured cfg) cb hP hB hS]
    simp [List.range_eq_range']
  · rw [barWrites_append, barWrites_append, barWrites_append, barWrites_syncEvents,
      barWrites_ret, barWrites_okStepTrace,
      barWrites_finishEvents_full cfg (tipsConfigured cfg) cb hP hB hS]
    simp [List.range_eq_range']

/-- Witness for the amended C1 at the three-step run. -/
theorem C1_amended_witness :
    pctWrites (initLoadOperation fullCfg [okStep "A", okStep "B", okStep "C"] true) =
      (List.range 3).map (mbRound 3) ++ [100] ∧
    2 ^ 52 * 3 ≤ 100 * 2 ^ mbScale 3 := by
  have h := C1_amended fullCfg [okStep "A", okStep "B", okStep "C"] true rfl rfl rfl rfl
    (by decide) (by decide)
  exact ⟨h.1, h.2.2.2.1⟩

/-! ### Claim C2 -/

/-- Claim C2 (confirmed): with every sink present and no step throwing,
the work/callback subtrace of a run of `n` steps is exactly
`workRun 0, …, workRun (n-1), callbackRun` when a callback is supplied —
each step's work runs exactly once, strictly in submission order, and the
callback runs exactly once, after the last step; without a callback the
subtrace is just the work invocations. -/
theorem C2_workOrder (cfg : MB_Config) (l : List MB_AsyncLoadOperation)
    (hS : cfg.hasScreen = true) (hL : cfg.hasLabel = true) (hP : cfg.hasPct = true)
    (hB : cfg.hasBar = true) (hok : ∀ op ∈ l, op.throws = false) :
    workEvents (initLoadOperation cfg l true) =
      (List.range l.length).map Ev.workRun ++ [Ev.callbackRun] ∧
    workEvents (initLoadOperation cfg l false) =
      (List.range l.length).map Ev.workRun := by
  constructor
  · rw [initLoad_ok cfg l true hL hB hP hok]
    rw [workEvents_append, workEvents_append, workEvents_append, workEvents_syncEvents,
      workEvents_ret, workEvents_okStepTrace,
      workEvents_finishEvents_full cfg (tipsConfigured cfg) true hP hB hS]
    simp [List.range_eq_range']
  · rw [initLoad_ok cfg l false hL hB hP hok]
    rw [workEvents_append, workEvents_append, workEvents_append, workEvents_syncEvents,
      workEvents_ret, workEvents_okStepTrace,
      workEvents_finishEvents_full cfg (tipsConfigured cfg) false hP hB hS]
    simp [List.range_eq_range']

/-- Witness for C2 at the three-step run. -/
theorem C2_workOrder_witness :
    workEvents (initLoadOperation fullCfg [okStep "A", okStep "B", okStep "C"] true) =
      (List.range 3).map Ev.workRun ++ [Ev.callbackRun] :=
  (C2_workOrder fullCfg [okStep "A", okStep "B", okStep "C"] rfl rfl rfl rfl
    (by decide)).1

/-! ### Claim C4 -/

/-- A configuration whose only absent sink is the (documented-optional)
progress bar. -/
def noBarCfg : MB_Config :=
  { hasScreen := true, hasLabel := true, hasPct := true, hasBar := false,
    hasTipSink := false, tips := [] }

/-- Claim C4 fails on the code: the JSDoc marks `loadingProgressBar` (and
`loadingScreen`) optional, but the per-step continuation dereferences
`this.loadingProgressBar.style` unconditionally (part_001 line 71), so
running one step with that sink absent throws a TypeError after the label
write: the step's work never runs and the callback never fires, instead
of the update merely being skipped. -/
theorem C4_code_bug :
    initLoadOperation noBarCfg [okStep "A"] true =
      [Ev.screenShow, Ev.ret, Ev.labelWrite "A", Ev.sinkError] ∧
    Ev.workRun 0 ∉ initLoadOperation noBarCfg [okStep "A"] true ∧
    Ev.callbackRun ∉ initLoadOperation noBarCfg [okStep "A"] true :=
  ⟨rfl, by decide, by decide⟩

/-! ### Claim C6 -/

/-- Claim C6 (confirmed): a zero-length step list is legal; with the
sinks the completion continuation dereferences present, the run writes
100 to the percentage and progress-bar sinks, fires the callback exactly
once, and never writes the label sink. -/
theorem C6_zeroSteps (cfg : MB_Config)
    (hS : cfg.hasScreen = true) (hL : cfg.hasLabel = true) (hP : cfg.hasPct = true)
    (hB : cfg.hasBar = true) :
    pctWrites (initLoadOperation cfg [] true) = [100] ∧
    barWrites (initLoadOperation cfg [] true) = [100] ∧
    labelWrites (initLoadOperation cfg [] true) = [] ∧
    workEvents (initLoadOperation cfg [] true) = [Ev.callbackRun] := by
  have h0 : ∀ op ∈ ([] : List MB_AsyncLoadOperation), op.throws = false := by simp
  rw [initLoad_ok cfg [] true hL hB hP h0]
  refine ⟨?_, ?_, ?_, ?_⟩
  · rw [pctWrites_append, pctWrites_append, pctWrites_append, pctWrites_syncEvents,
      pctWrites_ret, pctWrites_okStepTrace,
      pctWrites_finishEvents_full cfg (tipsConfigured cfg) true hP hB hS]
    simp
  · rw [barWrites_append, barWrites_append, barWrites_append, barWrites_syncEvents,
      barWrites_ret, barWrites_okStepTrace,
      barWrites_finishEvents_full cfg (tipsConfigured cfg) true hP hB hS]
    simp
  · rw [labelWrites_append, labelWrites_append, labelWrites_append, labelWrites_syncEvents,
      labelWrites_ret, labelWrites_okStepTrace,
      labelWrites_finishEvents_full cfg (tipsConfigured cfg) true hP hB hS]
    simp
  · rw [workEvents_append, workEvents_append, workEvents_append, workEvents_syncEvents,
      workEvents_ret, workEvents_okStepTrace,
      workEvents_finishEvents_full cfg (tipsConfigured cfg) true hP hB hS]
    simp

/-- Witness for C6 at a fully configured controller. -/
theorem C6_zeroSteps_witness :
    pctWrites (initLoadOperation fullCfg [] true) = [100] ∧
    labelWrites (initLoadOperation fullCfg [] true) = [] :=
  ⟨(C6_zeroSteps fullCfg rfl rfl rfl rfl).1, (C6_zeroSteps fullCfg rfl rfl rfl rfl).2.2.1⟩

/-! ### Claim C3 -/

/-- Claim C3 (confirmed): with all sinks present, tips configured, and a
callback supplied, if the step after `good` throws then: only the first
`good.length` work functions ran, step `good.length`'s work raised, the
callback never fires, the percentage writes stop at the failing step's
pre-update value (no forced 100), the label writes stop at the failing
step's label, and the tip-rotation timer was started but never stopped. -/
theorem C3_failure (cfg : MB_Config) (good : List MB_AsyncLoadOperation)
    (bad : MB_AsyncLoadOperation) (rest : List MB_AsyncLoadOperation)
    (hL : cfg.hasLabel = true) (hP : cfg.hasPct = true)
    (hB : cfg.hasBar = true) (htips : tipsConfigured cfg = true)
    (hok : ∀ op ∈ good, op.throws = false) (hbad : bad.throws = true) :
    workEvents (initLoadOperation cfg (good ++ bad :: rest) true) =
      (List.range good.length).map Ev.workRun ∧
    Ev.workError good.length ∈ initLoadOperation cfg (good ++ bad :: rest) true ∧
    Ev.callbackRun ∉ initLoadOperation cfg (good ++ bad :: rest) true ∧
    pctWrites (initLoadOperation cfg (good ++ bad :: rest) true) =
      (List.range (good.length + 1)).map (mbRound (good ++ bad :: rest).length) ∧
    labelWrites (initLoadOperation cfg (good ++ bad :: rest) true) =
      good.map MB_AsyncLoadOperation.text ++ [bad.text] ∧
    Ev.timerStart ∈ initLoadOperation cfg (good ++ bad :: rest) true ∧
    Ev.timerStop ∉ initLoadOperation cfg (good ++ bad :: rest) true := by
  rw [initLoad_throw cfg good bad rest true hL hB hP hok hbad]
  refine ⟨?_, ?_, ?_, ?_, ?_, ?_, ?_⟩
  · rw [workEvents_append, workEvents_append, workEvents_append, workEvents_syncEvents,
      workEvents_ret, workEvents_okStepTrace]
    simp [workEvents, List.range_eq_range']
  · simp
  · intro h
    rcases List.mem_append.mp h with h1 | h1
    · rcases List.mem_append.mp h1 with h2 | h2
      · exact callbackRun_not_mem_syncEvents cfg h2
      · simp at h2
    · rcases List.mem_append.mp h1 with h2 | h2
      · exact callbackRun_not_mem_okStepTrace _ good 0 h2
      · simp at h2
  · rw [pctWrites_append, pctWrites_append, pctWrites_append, pctWrites_syncEvents,
      pctWrites_ret, pctWrites_okStepTrace]
    simp [pctWrites, List.range_eq_range', List.range'_concat]
  · rw [labelWrites_append, labelWrites_append, labelWrites_append, labelWrites_syncEvents,
      labelWrites_ret, labelWrites_okStepTrace]
    simp [labelWrites]
  · exact List.mem_append.mpr (Or.inl (List.mem_append.mpr (Or.inl
      (timerStart_mem_syncEvents cfg htips))))
  · intro h
    rcases List.mem_append.mp h with h1 | h1
    · rcases List.mem_append.mp h1 with h2 | h2
      · exact timerStop_not_mem_syncEvents cfg h2
      · simp at h2
    · rcases List.mem_append.mp h1 with h2 | h2
      · exact timerStop_not_mem_okStepTrace _ good 0 h2
      · simp at h2

/-- Witness for C3: a three-step run whose middle step throws. -/
theorem C3_failure_witness :
    workEvents (initLoadOperation tipCfg [okStep "A", throwStep "B", okStep "C"] true) =
      (List.range 1).map Ev.workRun ∧
    Ev.callbackRun ∉ initLoadOperation tipCfg [okStep "A", throwStep "B", okStep "C"] true ∧
    Ev.timerStop ∉ initLoadOperation tipCfg [okStep "A", throwStep "B", okStep "C"] true := by
  have h := C3_failure tipCfg [okStep "A"] (throwStep "B") [okStep "C"] rfl rfl rfl rfl
    (by decide) rfl
  exact ⟨h.1, h.2.2.1, h.2.2.2.2.2.2⟩

/-! ### Claim C5 -/

/-- Claim C5 is false as stated: a failed run never reaches the
completion continuation, so its `clearInterval` never executes and the
tip-rotation timer stays alive; a second run on the same controller
starts a fresh timer, so after its synchronous phase two timers are alive
at once. -/
theorem C5_counterexample :
    ¬ ∀ k, aliveTimers ((initLoadOperation tipCfg [throwStep "A"] false ++
        initLoadOperation tipCfg [okStep "B"] true).take k) ≤ 1 := by
  intro h
  exact absurd (h 9) (by decide)

/-- Claim C5 amended: within any single `initLoadOperation` run at most
one tip-rotation timer is ever alive, and a run in which every sink the
continuations dereference is present and no step throws ends with as many
timer stops as starts; the at-most-one guarantee does not extend across
runs when an earlier run failed. -/
theorem C5_amended (cfg : MB_Config) (l : List MB_AsyncLoadOperation) (cb : Bool) :
    (∀ k, aliveTimers ((initLoadOperation cfg l cb).take k) ≤ 1) ∧
    (cfg.hasScreen = true → cfg.hasLabel = true → cfg.hasPct = true → cfg.hasBar = true →
      (∀ op ∈ l, op.throws = false) → aliveTimers (initLoadOperation cfg l cb) = 0) := by
  constructor
  · have h1 : (syncEvents cfg).count Ev.timerStart ≤ 1 := by
      rw [count_timerStart_syncEvents]
      split <;> simp
    have hret : ([Ev.ret].count Ev.timerStart) = 0 := rfl
    have h2 : ((stepEvents cfg l.length l 0).1).count Ev.timerStart = 0 :=
      List.count_eq_zero.mpr (timerStart_not_mem_stepEvents cfg l.length l 0)
    have h3 : (if (stepEvents cfg l.length l 0).2 then
        finishEvents cfg (tipsConfigured cfg) cb else []).count Ev.timerStart = 0 := by
      split
      · exact List.count_eq_zero.mpr (timerStart_not_mem_finishEvents cfg _ cb)
      · rfl
    have hfull : (initLoadOperation cfg l cb).count Ev.timerStart ≤ 1 := by
      simp only [initLoadOperation, List.count_append]
      omega
    intro k
    have hmono : ((initLoadOperation cfg l cb).take k).count Ev.timerStart ≤
        (initLoadOperation cfg l cb).count Ev.timerStart :=
      (List.take_sublist k _).count_le _
    unfold aliveTimers
    omega
  · intro hS hL hP hB hok
    have hstart : (initLoadOperation cfg l cb).count Ev.timerStart =
        (if tipsConfigured cfg then 1 else 0) := by
      rw [initLoad_ok cfg l cb hL hB hP hok, List.count_append, List.count_append,
        List.count_append, count_timerStart_syncEvents]
      have o1 : ([Ev.ret].count Ev.timerStart) = 0 := rfl
      have o2 : ((okStepTrace l.length l 0).count Ev.timerStart) = 0 :=
        List.count_eq_zero.mpr (timerStart_not_mem_okStepTrace l.length l 0)
      have o3 : ((finishEvents cfg (tipsConfigured cfg) cb).count Ev.timerStart) = 0 :=
        List.count_eq_zero.mpr (timerStart_not_mem_finishEvents cfg _ cb)
      omega
    have hstop : (initLoadOperation cfg l cb).count Ev.timerStop =
        (if tipsConfigured cfg then 1 else 0) := by
      rw [initLoad_ok cfg l cb hL hB hP hok, List.count_append, List.count_append,
        List.count_append, count_timerStop_syncEvents,
        count_timerStop_finishEvents cfg (tipsConfigured cfg) cb hP hB hS]
      have o1 : ([Ev.ret].count Ev.timerStop) = 0 := rfl
      have o2 : ((okStepTrace l.length l 0).count Ev.timerStop) = 0 :=
        List.count_eq_zero.mpr (timerStop_not_mem_okStepTrace l.length l 0)
      omega
    unfold aliveTimers
    rw [hstart, hstop]
    simp

/-- Witness for the amended C5 at a successful run with tips. -/
theorem C5_amended_witness :
    aliveTimers ((initLoadOperation tipCfg [okStep "A"] true).take 5) ≤ 1 ∧
    aliveTimers (initLoadOperation tipCfg [okStep "A"] true) = 0 :=
  ⟨(C5_amended tipCfg [okStep "A"] true).1 5,
   (C5_amended tipCfg [okStep "A"] true).2 rfl rfl rfl rfl (by decide)⟩

/-! ### Claim C8 -/

/-- Claim C8 (confirmed): on a successful run with tips configured and a
callback, the trace ends exactly with clearing the tip sink, stopping the
tip-rotation timer, and then invoking the callback — so the timer is
stopped and the tip text cleared before the callback fires, and no
tip-sink write occurs after it. -/
theorem C8_timerStopBeforeCallback (cfg : MB_Config) (l : List MB_AsyncLoadOperation)
    (hS : cfg.hasScreen = true) (hL : cfg.hasLabel = true) (hP : cfg.hasPct = true)
    (hB : cfg.hasBar = true) (hT : cfg.hasTipSink = true) (hlen : 0 < cfg.tips.length)
    (hok : ∀ op ∈ l, op.throws = false) :
    initLoadOperation cfg l true =
      (syncEvents cfg ++ [Ev.ret] ++ okStepTrace l.length l 0 ++
        [Ev.pctWrite 100, Ev.barWrite 100, Ev.screenHide]) ++
      [Ev.tipClear, Ev.timerStop, Ev.callbackRun] := by
  have htips : tipsConfigured cfg = true := by simp [tipsConfigured, hT, hlen]
  rw [initLoad_ok cfg l true hL hB hP hok, htips,
    finishEvents_success cfg true hP hB hS hT]
  simp

/-- Witness for C8 at a one-step run. -/
theorem C8_timerStopBeforeCallback_witness :
    initLoadOperation tipCfg [okStep "A"] true =
      (syncEvents tipCfg ++ [Ev.ret] ++ okStepTrace 1 [okStep "A"] 0 ++
        [Ev.pctWrite 100, Ev.barWrite 100, Ev.screenHide]) ++
      [Ev.tipClear, Ev.timerStop, Ev.callbackRun] :=
  C8_timerStopBeforeCallback tipCfg [okStep "A"] rfl rfl rfl rfl rfl (by decide) (by decide)

/-! ### Claim C9 -/

/-- Options with every field absent except the percentage and
progress-bar sinks — in particular no `loadingText`. -/
def noLabelOpts : MB_Options :=
  { loadingScreen := false, loadingText := false, loadingPercentage := true,
    loadingProgressBar := true, loadingTips := false, tips := none }

/-- Claim C9 is false: the `MB_AsyncLoadController` constructor contains
no validation and no throw, so constructing without the label sink
succeeds and yields an ordinary controller; the missing sink surfaces
only at first use — the first step's continuation throws a TypeError
(before any step's work runs) rather than the constructor failing
fast. -/
theorem C9_counterexample :
    (MB_AsyncLoadController.ofOptions noLabelOpts).hasLabel = false ∧
    MB_AsyncLoadController.ofOptions noLabelOpts =
      { hasScreen := false, hasLabel := false, hasPct := true, hasBar := true,
        hasTipSink := false, tips := [] } ∧
    initLoadOperation (MB_AsyncLoadController.ofOptions noLabelOpts) [okStep "A"] true =
      [Ev.ret, Ev.sinkError] ∧
    Ev.workRun 0 ∉
      initLoadOperation (MB_AsyncLoadController.ofOptions noLabelOpts) [okStep "A"] true :=
  ⟨rfl, rfl, rfl, by decide⟩

/-- Claim C9 amended: construction without the label sink always
succeeds (the constructor copies fields unchecked), and the failure
instead occurs at first use: any nonempty run aborts with a TypeError
immediately after returning, with no step's work and no callback ever
invoked. -/
theorem C9_amended (o : MB_Options) (hL : o.loadingText = false)
    (op : MB_AsyncLoadOperation) (ops : List MB_AsyncLoadOperation) (cb : Bool) :
    (MB_AsyncLoadController.ofOptions o).hasLabel = false ∧
    initLoadOperation (MB_AsyncLoadController.ofOptions o) (op :: ops) cb =
      syncEvents (MB_AsyncLoadController.ofOptions o) ++ [Ev.ret, Ev.sinkError] ∧
    (∀ i, Ev.workRun i ∉
      initLoadOperation (MB_AsyncLoadController.ofOptions o) (op :: ops) cb) ∧
    Ev.callbackRun ∉
      initLoadOperation (MB_AsyncLoadController.ofOptions o) (op :: ops) cb := by
  have hcl : (MB_AsyncLoadController.ofOptions o).hasLabel = false := hL
  have heq : initLoadOperation (MB_AsyncLoadController.ofOptions o) (op :: ops) cb =
      syncEvents (MB_AsyncLoadController.ofOptions o) ++ [Ev.ret, Ev.sinkError] := by
    simp only [initLoadOperation,
      stepEvents_cons_noLabel (MB_AsyncLoadController.ofOptions o) _ op ops 0 hcl]
    simp
  refine ⟨hcl, heq, ?_, ?_⟩
  · intro i hmem
    rw [heq] at hmem
    rcases List.mem_append.mp hmem with h | h
    · exact workRun_not_mem_syncEvents _ i h
    · simp at h
  · intro hmem
    rw [heq] at hmem
    rcases List.mem_append.mp hmem with h | h
    · exact callbackRun_not_mem_syncEvents _ h
    · simp at h

/-- Witness for the amended C9 at the concrete no-label options. -/
theorem C9_amended_witness :
    (MB_AsyncLoadController.ofOptions noLabelOpts).hasLabel = false ∧
    initLoadOperation (MB_AsyncLoadController.ofOptions noLabelOpts) [okStep "A"] true =
      syncEvents (MB_AsyncLoadController.ofOptions noLabelOpts) ++ [Ev.ret, Ev.sinkError] := by
  have h := C9_amended noLabelOpts rfl (okStep "A") [] true
  exact ⟨h.1, h.2.1⟩

/-! ### Claim C7 -/

/-- Claim C7 (confirmed): with a tip sink and a non-empty tip list, the
run's first two events are the timer registration and the synchronous
write of the first tip (the first timer firing is a full 10,000 ms
later); each firing writes the element at index `floor(r * len)` of the
tip list for the uniform sample `r`, and the sample intervals mapping to
each index all have the same width `1/len` — a uniformly-random element;
without a configured tip sink and non-empty list, no timer is started and
no tip is ever written. -/
theorem C7_tipRotation (cfg : MB_Config) (l : List MB_AsyncLoadOperation) (cb : Bool) :
    (cfg.hasTipSink = true → 0 < cfg.tips.length →
      ((initLoadOperation cfg l cb).take 2 =
          [Ev.timerStart, Ev.tipWrite (cfg.tips.headD "")] ∧
       (∀ k, tickTime k = (k + 1) * 10000) ∧
       (∀ r : ℚ, 0 ≤ r → r < 1 →
         ∃ j : Nat, j < cfg.tips.length ∧ randomTipIndex cfg.tips.length r = (j : ℤ) ∧
           tipTickEvent cfg r = Ev.tipWrite (cfg.tips.getD j "") ∧
           cfg.tips.getD j "" ∈ cfg.tips) ∧
       (∀ j : Nat, j < cfg.tips.length → ∀ r : ℚ, 0 ≤ r → r < 1 →
         (randomTipIndex cfg.tips.length r = (j : ℤ) ↔
           (j : ℚ) / cfg.tips.length ≤ r ∧ r < ((j : ℚ) + 1) / cfg.tips.length)))) ∧
    (tipsConfigured cfg = false →
      Ev.timerStart ∉ initLoadOperation cfg l cb ∧
      ∀ s, Ev.tipWrite s ∉ initLoadOperation cfg l cb) := by
  constructor
  · intro hT hlen
    have htips : tipsConfigured cfg = true := by simp [tipsConfigured, hT, hlen]
    refine ⟨?_, fun k => rfl, ?_, ?_⟩
    · simp only [initLoadOperation, syncEvents, htips, if_true]
      simp
    · intro r hr0 hr1
      have hlen' : (0 : ℚ) < cfg.tips.length := by exact_mod_cast hlen
      have hfl0 : 0 ≤ ⌊r * (cfg.tips.length : ℚ)⌋ :=
        Int.floor_nonneg.mpr (by positivity)
      have hflL : ⌊r * (cfg.tips.length : ℚ)⌋ < (cfg.tips.length : ℤ) := by
        apply Int.floor_lt.mpr
        push_cast
        calc r * (cfg.tips.length : ℚ) < 1 * (cfg.tips.length : ℚ) :=
              mul_lt_mul_of_pos_right hr1 hlen'
          _ = (cfg.tips.length : ℚ) := one_mul _
      have hjlt : (⌊r * (cfg.tips.length : ℚ)⌋).toNat < cfg.tips.length := by omega
      refine ⟨(⌊r * (cfg.tips.length : ℚ)⌋).toNat, hjlt, ?_, rfl, ?_⟩
      · exact (Int.toNat_of_nonneg hfl0).symm
      · rw [List.getD_eq_getElem cfg.tips "" hjlt]
        exact List.getElem_mem hjlt
    · intro j hj r hr0 hr1
      have hlen' : (0 : ℚ) < cfg.tips.length := by
        exact_mod_cast Nat.lt_of_le_of_lt (Nat.zero_le j) hj
      unfold randomTipIndex
      rw [Int.floor_eq_iff, div_le_iff₀ hlen', lt_div_iff₀ hlen']
      push_cast
      exact Iff.rfl
  · intro hnc
    have hstep : ∀ e, e ∈ initLoadOperation cfg l cb →
        e ∈ syncEvents cfg ∨ e = Ev.ret ∨ e ∈ (stepEvents cfg l.length l 0).1 ∨
          e ∈ finishEvents cfg (tipsConfigured cfg) cb := by
      intro e hmem
      simp only [initLoadOperation] at hmem
      rcases List.mem_append.mp hmem with h1 | h1
      · rcases List.mem_append.mp h1 with h2 | h2
        · rcases List.mem_append.mp h2 with h3 | h3
          · exact Or.inl h3
          · simp at h3; exact Or.inr (Or.inl h3)
        · exact Or.inr (Or.inr (Or.inl h2))
      · cases hs : (stepEvents cfg l.length l 0).2 with
        | true =>
          rw [hs] at h1; simp at h1
          exact Or.inr (Or.inr (Or.inr h1))
        | false => rw [hs] at h1; simp at h1
    constructor
    · intro hmem
      rcases hstep _ hmem with h | h | h | h
      · exact timerStart_not_mem_syncEvents_of_not_configured cfg hnc h
      · cases h
      · exact timerStart_not_mem_stepEvents cfg l.length l 0 h
      · exact timerStart_not_mem_finishEvents cfg _ cb h
    · intro s hmem
      rcases hstep _ hmem with h | h | h | h
      · exact tipWrite_not_mem_syncEvents_of_not_configured cfg hnc s h
      · cases h
      · exact tipWrite_not_mem_stepEvents cfg l.length l 0 s h
      · exact tipWrite_not_mem_finishEvents cfg _ cb s h

/-- Witness for C7 at a tip-configured run and a tip-free run. -/
theorem C7_tipRotation_witness :
    (initLoadOperation tipCfg [] true).take 2 =
      [Ev.timerStart, Ev.tipWrite (tipCfg.tips.headD "")] ∧
    Ev.timerStart ∉ initLoadOperation fullCfg [] true :=
  ⟨((C7_tipRotation tipCfg [] true).1 rfl (by decide)).1,
   ((C7_tipRotation fullCfg [] true).2 rfl).1⟩

/-! ### Claim C10 -/

theorem stepEvents_retPromise (cfg : MB_Config) (n : Nat) (b : Bool) :
    ∀ (l : List MB_AsyncLoadOperation) (i : Nat),
      stepEvents cfg n (l.map (fun op => { op with retPromise := b })) i =
        stepEvents cfg n l i := by
  intro l
  induction l with
  | nil => intro i; rfl
  | cons op rest ih =>
    intro i
    simp only [List.map_cons]
    cases hL : cfg.hasLabel with
    | false =>
      rw [stepEvents_cons_noLabel cfg n _ _ i hL, stepEvents_cons_noLabel cfg n op rest i hL]
    | true =>
      cases hB : cfg.hasBar with
      | false =>
        rw [stepEvents_cons_noBar cfg n _ _ i hL hB,
          stepEvents_cons_noBar cfg n op rest i hL hB]
      | true =>
        cases hP : cfg.hasPct with
        | false =>
          rw [stepEvents_cons_noPct cfg n _ _ i hL hB hP,
            stepEvents_cons_noPct cfg n op rest i hL hB hP]
        | true =>
          cases hT : op.throws with
          | true =>
            rw [stepEvents_cons_throw cfg n op rest i hL hB hP hT,
              stepEvents_cons_throw cfg n { text := op.text, throws := true, retPromise := b }
                (rest.map (fun op => { op with retPromise := b })) i hL hB hP rfl]
          | false =>
            rw [stepEvents_cons_ok cfg n op rest i hL hB hP hT,
              stepEvents_cons_ok cfg n { text := op.text, throws := false, retPromise := b }
                (rest.map (fun op => { op with retPromise := b })) i hL hB hP rfl,
              ih (i + 1)]

theorem okStepTrace_adj (n : Nat) :
    ∀ (l : List MB_AsyncLoadOperation) (i j : Nat) (hj : j + 1 < l.length),
      ∃ a b, okStepTrace n l i =
        a ++ Ev.workRun (i + j) :: Ev.labelWrite ((l.get ⟨j + 1, hj⟩).text) :: b := by
  intro l
  induction l with
  | nil => intro i j hj; simp at hj
  | cons op rest ih =>
    intro i j hj
    cases j with
    | zero =>
      cases rest with
      | nil => simp at hj
      | cons op2 rest2 =>
        refine ⟨[Ev.labelWrite op.text, Ev.barWrite (mbRound n i), Ev.pctWrite (mbRound n i)],
          Ev.barWrite (mbRound n (i + 1)) :: Ev.pctWrite (mbRound n (i + 1)) ::
            Ev.workRun (i + 1) :: okStepTrace n rest2 (i + 2), ?_⟩
        simp [okStepTrace]
    | succ j2 =>
      have hj2 : j2 + 1 < rest.length := by simpa using hj
      obtain ⟨a, b, hab⟩ := ih (i + 1) j2 hj2
      refine ⟨Ev.labelWrite op.text :: Ev.barWrite (mbRound n i) :: Ev.pctWrite (mbRound n i) ::
        Ev.workRun i :: a, b, ?_⟩
      simp [okStepTrace, hab, Nat.add_assoc, Nat.add_comm 1 j2]

/-- Claim C10 (confirmed): everything before the `ret` marker — i.e.
before `initLoadOperation` returns to its caller — is exactly the
synchronous phase, whose only events are the timer registration, the
first-tip write, and showing the loading screen; the trace is unchanged
if every step's work is marked as returning a (pending) promise, because
`func()`'s return value is discarded and never awaited; and in a
successful fully-sinked run each work invocation `j` is immediately
followed by step `j+1`'s label write, with nothing in between. -/
theorem C10_returnsFirst (cfg : MB_Config) (l : List MB_AsyncLoadOperation) (cb : Bool) :
    ((initLoadOperation cfg l cb).takeWhile (fun e => e != Ev.ret) = syncEvents cfg) ∧
    (∀ e ∈ syncEvents cfg,
      e = Ev.timerStart ∨ (∃ s, e = Ev.tipWrite s) ∨ e = Ev.screenShow) ∧
    (∀ b : Bool,
      initLoadOperation cfg (l.map (fun op => { op with retPromise := b })) cb =
        initLoadOperation cfg l cb) ∧
    (cfg.hasLabel = true → cfg.hasBar = true → cfg.hasPct = true →
      (∀ op ∈ l, op.throws = false) →
      ∀ (j : Nat) (hj : j + 1 < l.length),
        ∃ a b, initLoadOperation cfg l cb =
          a ++ Ev.workRun j :: Ev.labelWrite ((l.get ⟨j + 1, hj⟩).text) :: b) := by
  refine ⟨?_, fun e he => mem_syncEvents_shape cfg e he, ?_, ?_⟩
  · have he : initLoadOperation cfg l cb =
        syncEvents cfg ++ Ev.ret :: ((stepEvents cfg l.length l 0).1 ++
          (if (stepEvents cfg l.length l 0).2 then
            finishEvents cfg (tipsConfigured cfg) cb else [])) := by
      simp only [initLoadOperation]
      simp [List.append_assoc]
    rw [he]
    exact takeWhile_until_ret (syncEvents cfg) _ (ret_not_mem_syncEvents cfg)
  · intro b
    simp only [initLoadOperation, List.length_map, stepEvents_retPromise]
  · intro hL hB hP hok j hj
    obtain ⟨a, b, hab⟩ := okStepTrace_adj l.length l 0 j hj
    refine ⟨syncEvents cfg ++ [Ev.ret] ++ a,
      b ++ finishEvents cfg (tipsConfigured cfg) cb, ?_⟩
    rw [initLoad_ok cfg l cb hL hB hP hok, hab]
    simp [List.append_assoc]

/-- Witness for C10: the synchronous prefix of a concrete run, and the
promise-ignoring equation at a concrete step list. -/
theorem C10_returnsFirst_witness :
    ((initLoadOperation fullCfg [okStep "A"] true).takeWhile (fun e => e != Ev.ret) =
      syncEvents fullCfg) ∧
    initLoadOperation fullCfg
        ([okStep "A"].map (fun op => { op with retPromise := true })) true =
      initLoadOperation fullCfg [okStep "A"] true :=
  ⟨(C10_returnsFirst fullCfg [okStep "A"] true).1,
   (C10_returnsFirst fullCfg [okStep "A"] true).2.2.1 true⟩

end MarbleRace
